import Mathlib

/-!
Shallow embedding of `three-sprite-texture-atlas-manager`
(src/dist/three-sprite-texture-atlas-manager.es6.js).

Modelling conventions:
* JS integers become `Int`; pixel coordinates are exact integers here and
  `Math.floor` on an integer is the identity, so the `KnapsackRectangle`
  constructor's flooring is dropped for integer-valued fields.
* The external UUID generator (`THREE.Math.generateUUID`, used by
  `KnapsackNode.claim`) is modelled by a monotonically increasing `Nat`
  counter threaded through every operation: each `claim()` call consumes
  exactly one fresh counter value, so the counter difference across a call
  counts the number of claim events and the stored `imageID` records which
  claim event last wrote it.
* Canvas / WebGL objects (`canvas`, `context`, `THREE.Texture`) are not
  modelled except for the observable pieces the spec talks about: the
  lazily-built per-node texture is reduced to a `textureBuilt : Bool`
  flag (`_texture !== null`) plus the pure UV computation, and
  `release()` reports whether it called `dispose()`.
* Mutation is modelled by explicit state passing: tree-returning
  functions return the updated tree, and a returned node is identified
  by its path (`List Bool`, `false` = leftChild, `true` = rightChild)
  in the updated tree, or by `(knapsack index, path)` at manager level.
* JS exceptions become `Except TMError`; an exception thrown before any
  mutation leaves the threaded state unchanged, matching the source
  order of checks.
-/

/-- `KnapsackRectangle` (source lines 15-50): a pixel-aligned box. -/
structure KnapsackRectangle where
  left : Int
  top : Int
  right : Int
  bottom : Int
deriving DecidableEq, Repr

/-- `get width()` : `right - left`. -/
def KnapsackRectangle.width (r : KnapsackRectangle) : Int := r.right - r.left

/-- `get height()` : `bottom - top`. -/
def KnapsackRectangle.height (r : KnapsackRectangle) : Int := r.bottom - r.top

/-- The errors thrown by the manager / node code, per the spec's taxonomy.
The source throws plain `Error`s with interpolated messages; only the
identity of each error site is modelled. -/
inductive TMError where
  | widthTooLarge
  | heightTooLarge
  | queueNotInitialized
  | releaseOnBranch
deriving DecidableEq, Repr

/-- `SizeError` in the spec's taxonomy covers the two `_validateSize` throws. -/
def TMError.isSizeError : TMError → Bool
  | .widthTooLarge => true
  | .heightTooLarge => true
  | _ => false

/-- `KnapsackNode` (source lines 78-431): a leaf has `leftChild === null &&
rightChild === null`; the source always assigns both children together, so a
node is either a leaf or has exactly two children.  `imageID : Option Nat`
(`null` = free) and `textureBuilt` models `_texture !== null`. -/
inductive KnapsackNode where
  | leaf (rectangle : KnapsackRectangle) (imageID : Option Nat) (textureBuilt : Bool)
  | branch (rectangle : KnapsackRectangle) (imageID : Option Nat) (textureBuilt : Bool)
      (leftChild rightChild : KnapsackNode)
deriving DecidableEq, Repr

/-- `this.rectangle`. -/
def KnapsackNode.rectangle : KnapsackNode → KnapsackRectangle
  | .leaf r _ _ => r
  | .branch r _ _ _ _ => r

/-- `this.imageID`. -/
def KnapsackNode.imageID : KnapsackNode → Option Nat
  | .leaf _ iv _ => iv
  | .branch _ iv _ _ _ => iv

/-- `hasChildren()` (source lines 204-206). -/
def KnapsackNode.hasChildren : KnapsackNode → Bool
  | .leaf _ _ _ => false
  | .branch _ _ _ _ _ => true

/-- `isOccupied()` (source lines 214-216): `imageID !== null`. -/
def KnapsackNode.isOccupied (n : KnapsackNode) : Bool := n.imageID.isSome

/-- `get width()` on a node (source line 157). -/
def KnapsackNode.width (n : KnapsackNode) : Int := n.rectangle.width

/-- `get height()` on a node (source line 169). -/
def KnapsackNode.height (n : KnapsackNode) : Int := n.rectangle.height

/-- Number of nodes in the tree; part of the termination measure of
`allocate`. -/
def KnapsackNode.nodeCount : KnapsackNode → Nat
  | .leaf _ _ _ => 1
  | .branch _ _ _ lc rc => 1 + lc.nodeCount + rc.nodeCount

/-- Termination measure helper for the split recursion of `allocate`:
each split makes at least one requested dimension an exact fit in the
first child. -/
def KnapsackNode.allocMeasure : KnapsackNode → Int → Int → Nat
  | .leaf r _ _, w, h => (if r.width = w then 0 else 1) + (if r.height = h then 0 else 1)
  | .branch _ _ _ _ _, _, _ => 0

/-- `claim()` (source lines 420-430) applied to the node a path points at:
assigns the next fresh identifier to that node (the debug outline drawing is
purely observational and unmodelled). -/
def KnapsackNode.claimAt : KnapsackNode → List Bool → Nat → KnapsackNode
  | .leaf r _ tb, [], i => .leaf r (some i) tb
  | .branch r _ tb lc rc, [], i => .branch r (some i) tb lc rc
  | .branch r iv tb lc rc, false :: p, i => .branch r iv tb (lc.claimAt p i) rc
  | .branch r iv tb lc rc, true :: p, i => .branch r iv tb lc (rc.claimAt p i)
  | n, _, _ => n

/-- `allocate(width, height)` (source lines 323-413), with the fresh-ID
counter threaded through.  Returns the path of the returned node in the
updated tree (`none` = the JS `null`), the updated tree, and the counter.

* branch: try `leftChild.allocate`; on success call `claim()` on the
  result (source line 330) and return it; otherwise return
  `rightChild.allocate` unchanged.
* leaf: fail if occupied; fail if too small; claim on an exact fit;
  otherwise split (`remainingWidth > remainingHeight` picks the axis,
  source lines 363-396) and recurse into the first child. -/
def KnapsackNode.allocate : KnapsackNode → Int → Int → Nat →
    Option (List Bool) × KnapsackNode × Nat
  | .branch r iv tb lc rc, w, h, c =>
    match KnapsackNode.allocate lc w h c with
    | (some p, lc', c') => (some (false :: p), .branch r iv tb (lc'.claimAt p c') rc, c' + 1)
    | (none, lc', c') =>
      match KnapsackNode.allocate rc w h c' with
      | (res, rc', c'') => (Option.map (fun p => true :: p) res, .branch r iv tb lc' rc', c'')
  | .leaf r iv tb, w, h, c =>
    if hocc : iv.isSome then (none, .leaf r iv tb, c)
    else if hbig : w > r.width ∨ h > r.height then (none, .leaf r iv tb, c)
    else if hfit : w = r.width ∧ h = r.height then (some [], .leaf r (some c) tb, c + 1)
    else if hdir : r.width - w > r.height - h then
      match KnapsackNode.allocate (.leaf ⟨r.left, r.top, r.left + w, r.bottom⟩ none false) w h c with
      | (res, lc', c') =>
        (Option.map (fun p => false :: p) res,
         .branch r iv tb lc' (.leaf ⟨r.left + w, r.top, r.right, r.bottom⟩ none false), c')
    else
      match KnapsackNode.allocate (.leaf ⟨r.left, r.top, r.right, r.top + h⟩ none false) w h c with
      | (res, lc', c') =>
        (Option.map (fun p => false :: p) res,
         .branch r iv tb lc' (.leaf ⟨r.left, r.top + h, r.right, r.bottom⟩ none false), c')
termination_by n w h c => 3 * n.nodeCount + KnapsackNode.allocMeasure n w h
decreasing_by
  · cases lc <;> cases rc <;>
      simp only [KnapsackNode.nodeCount, KnapsackNode.allocMeasure] <;>
      first
      | (split_ifs <;> omega)
      | omega
  · cases lc <;> cases rc <;>
      simp only [KnapsackNode.nodeCount, KnapsackNode.allocMeasure] <;>
      first
      | (split_ifs <;> omega)
      | omega
  · simp only [KnapsackNode.nodeCount, KnapsackNode.allocMeasure,
      KnapsackRectangle.width, KnapsackRectangle.height] at *
    split_ifs <;> omega
  · simp only [KnapsackNode.nodeCount, KnapsackNode.allocMeasure,
      KnapsackRectangle.width, KnapsackRectangle.height] at *
    split_ifs <;> omega

/-- Look a node up by its path. -/
def KnapsackNode.nodeAt : KnapsackNode → List Bool → Option KnapsackNode
  | n, [] => some n
  | .branch _ _ _ lc _, false :: p => lc.nodeAt p
  | .branch _ _ _ _ rc, true :: p => rc.nodeAt p
  | .leaf _ _ _, _ :: _ => none

/-- `release()` (source lines 247-261): throws on a node with children;
otherwise disposes the texture if one was built (`_texture !== null`),
clears the canvas area (unmodelled) and clears `imageID`.  The `Bool`
result reports whether `dispose()` was called during this release. -/
def KnapsackNode.release : KnapsackNode → Except TMError (KnapsackNode × Bool)
  | .branch _ _ _ _ _ => .error .releaseOnBranch
  | .leaf r _ tb => .ok (.leaf r none false, tb)

/-- `release()` invoked on the node a path points at; `none` when the path
is invalid or the release threw (the throw happens before any mutation). -/
def KnapsackNode.releaseAt : KnapsackNode → List Bool → Option KnapsackNode
  | n, [] =>
    match n.release with
    | .ok (n', _) => some n'
    | .error _ => none
  | .branch r iv tb lc rc, false :: p => (lc.releaseAt p).map (fun lc' => .branch r iv tb lc' rc)
  | .branch r iv tb lc rc, true :: p => (rc.releaseAt p).map (fun rc' => .branch r iv tb lc rc')
  | .leaf _ _ _, _ :: _ => none

/-- `uvCoordinates()` (source lines 229-237):
`[left/size, 1 - bottom/size, right/size, 1 - top/size]` over exact
rationals. -/
def KnapsackNode.uvCoordinates (r : KnapsackRectangle) (size : Int) : List ℚ :=
  [ (r.left : ℚ) / (size : ℚ),
    1 - (r.bottom : ℚ) / (size : ℚ),
    (r.right : ℚ) / (size : ℚ),
    1 - (r.top : ℚ) / (size : ℚ) ]

/-- The UV offset/repeat fields of the lazily built per-node texture. -/
structure TextureUV where
  offsetX : ℚ
  offsetY : ℚ
  repeatX : ℚ
  repeatY : ℚ
deriving DecidableEq, Repr

/-- `get texture()` (source lines 185-196), reduced to the mutable UV
fields it sets on the cloned texture:
`offset = (uvs[0], uvs[1])`, `repeat = (uvs[2]-uvs[0], uvs[3]-uvs[1])`. -/
def KnapsackNode.buildTexture (r : KnapsackRectangle) (size : Int) : TextureUV :=
  let uvs := KnapsackNode.uvCoordinates r size
  { offsetX := uvs.getD 0 0
    offsetY := uvs.getD 1 0
    repeatX := uvs.getD 2 0 - uvs.getD 0 0
    repeatY := uvs.getD 3 0 - uvs.getD 1 0 }

/-- `Knapsack` (source lines 444-490): the canvas and root texture are
lazily-created browser objects and not modelled. -/
structure Knapsack where
  textureSize : Int
  rootNode : KnapsackNode
deriving DecidableEq, Repr

/-- The `Knapsack` constructor: root node covering the full surface
(`KnapsackRectangle(0, 0, size, size)`, source line 117), free, no
texture. -/
def Knapsack.new (size : Int) : Knapsack :=
  { textureSize := size, rootNode := .leaf ⟨0, 0, size, size⟩ none false }

/-- `Knapsack.allocateNode` (source lines 487-489): delegates to the root
node's `allocate`. -/
def Knapsack.allocateNode (k : Knapsack) (w h : Int) (c : Nat) :
    Option (List Bool) × Knapsack × Nat :=
  match k.rootNode.allocate w h c with
  | (res, n', c') => (res, { k with rootNode := n' }, c')

/-- A node handed out by the manager: (knapsack index, path in that tree). -/
abbrev NodeRef := Nat × List Bool

/-- `TextureManager` (source lines 526-560).  `queue` models `_queue`:
`none` while the field is still `undefined`, `some q` once
`allocateASync` has initialised it. -/
structure TextureManager where
  size : Int
  knapsacks : List Knapsack
  debug : Bool
  queue : Option (List (Int × Int))
deriving DecidableEq, Repr

/-- The size whitelist of the constructor's regular expression
`/^(128|256|512|1024|2048|4096|8192|16384)$/` on integer input. -/
def allowedSizes : List Int := [128, 256, 512, 1024, 2048, 4096, 8192, 16384]

/-- The `TextureManager` constructor (source lines 527-560): an absent or
non-whitelisted size falls back to 1024. -/
def TextureManager.new (size : Option Int) : TextureManager :=
  { size := match size with
      | some n => if n ∈ allowedSizes then n else 1024
      | none => 1024
    knapsacks := []
    debug := false
    queue := none }

/-- `get textureSize()` (source lines 583-585). -/
def TextureManager.textureSize (tm : TextureManager) : Int := tm.size

/-- `_validateSize(width, height)` (source lines 741-749): two `>`
comparisons against `textureSize`, nothing else. -/
def TextureManager.validateSize (tm : TextureManager) (w h : Int) : Except TMError Unit :=
  if w > tm.textureSize then .error .widthTooLarge
  else if h > tm.textureSize then .error .heightTooLarge
  else .ok ()

/-- The `knapsacks.forEach` scan inside `_allocate` (source lines 764-768):
first-fit over the knapsacks in creation order, later knapsacks untouched
once a node was found. -/
def TextureManager.scanKnapsacks : List Knapsack → Int → Int → Nat →
    Option NodeRef × List Knapsack × Nat
  | [], _, _, c => (none, [], c)
  | k :: ks, w, h, c =>
    match k.allocateNode w h c with
    | (some p, k', c') => (some (0, p), k' :: ks, c')
    | (none, k', c') =>
      match TextureManager.scanKnapsacks ks w h c' with
      | (res, ks', c'') => (Option.map (fun ip => (ip.1 + 1, ip.2)) res, k' :: ks', c'')

/-- `_allocate(width, height)` (source lines 760-777): scan existing
knapsacks; if none produced a node, `_addKnapsack(this.textureSize)`
(source lines 568-575, append to `knapsacks`) and allocate from the fresh
knapsack. -/
def TextureManager.mAllocate (tm : TextureManager) (w h : Int) (c : Nat) :
    Option NodeRef × TextureManager × Nat :=
  match TextureManager.scanKnapsacks tm.knapsacks w h c with
  | (some ref, ks', c') => (some ref, { tm with knapsacks := ks' }, c')
  | (none, ks', c') =>
    match (Knapsack.new tm.textureSize).allocateNode w h c' with
    | (res, k', c'') =>
      (Option.map (fun p => (ks'.length, p)) res,
       { tm with knapsacks := ks' ++ [k'] }, c'')

/-- `allocate(width, height)` (source lines 597-602): `_validateSize`
throws before any mutation, otherwise `_allocate`. -/
def TextureManager.allocate (tm : TextureManager) (w h : Int) (c : Nat) :
    Except TMError (Option NodeRef) × TextureManager × Nat :=
  match tm.validateSize w h with
  | .error e => (.error e, tm, c)
  | .ok _ =>
    match tm.mAllocate w h c with
    | (res, tm', c') => (.ok res, tm', c')

/-- `allocateNode(width, height)` (source lines 624-635): the promise-based
variant; the same validation and `_allocate`, delivered through
resolve/reject. -/
def TextureManager.allocateNode (tm : TextureManager) (w h : Int) (c : Nat) :
    Except TMError (Option NodeRef) × TextureManager × Nat :=
  match tm.validateSize w h with
  | .error e => (.error e, tm, c)
  | .ok _ =>
    match tm.mAllocate w h c with
    | (res, tm', c') => (.ok res, tm', c')

/-- The observable outcome of an `allocateASync` call: its promise is
either rejected immediately with a size error, or left pending until
`solveASync`. -/
inductive ASyncOutcome where
  | rejected (e : TMError)
  | pending
deriving DecidableEq, Repr

/-- `allocateASync(width, height)` (source lines 666-697): initialise
`_queue` to `[]` if it is not an array yet (before validation!), then
either reject (queuing nothing) or push `{width, height, resolve, reject}`. -/
def TextureManager.allocateASync (tm : TextureManager) (w h : Int) :
    ASyncOutcome × TextureManager :=
  let q0 := tm.queue.getD []
  match tm.validateSize w h with
  | .error e => (.rejected e, { tm with queue := some q0 })
  | .ok _ => (.pending, { tm with queue := some (q0 ++ [(w, h)]) })

/-- `solveASync()` (source lines 711-729): throw if `_queue` was never
initialised; otherwise `_allocate` each queued entry in order, resolving
its promise with the result (possibly `null`) and collecting the
promises; reset `_queue` to `[]`; return `Promise.all` of exactly the
collected promises, i.e. the list of results in queue order. -/
def TextureManager.solveASync (tm : TextureManager) (c : Nat) :
    Except TMError (List (Option NodeRef) × TextureManager × Nat) :=
  match tm.queue with
  | none => .error .queueNotInitialized
  | some q =>
    match q.foldl
        (fun acc e =>
          match acc, e with
          | (promises, t, cc), (w, h) =>
            match t.mAllocate w h cc with
            | (node, t', cc') => (promises ++ [node], t', cc'))
        (([] : List (Option NodeRef)), tm, c) with
    | (promises, tm', c') => .ok (promises, { tm' with queue := some [] }, c')

/-- `release(node)` (source lines 786-790): no-op on a falsy node,
otherwise delegate to the node's own `release()`. -/
def TextureManager.release (node : Option KnapsackNode) :
    Except TMError (Option (KnapsackNode × Bool)) :=
  match node with
  | none => .ok none
  | some n => n.release.map some

/-- Look a manager-level node reference up. -/
def TextureManager.nodeAt (tm : TextureManager) (ref : NodeRef) : Option KnapsackNode :=
  match tm.knapsacks.get? ref.1 with
  | some k => k.rootNode.nodeAt ref.2
  | none => none

/-- `validateSizeJS`: `_validateSize` over a model of JS numbers, to state
claims about non-integral inputs.  `JSNum.gt` is the JS `>` operator:
any comparison involving `NaN` is false. -/
inductive JSNum where
  | nan
  | num (val : ℚ)
deriving DecidableEq, Repr

/-- The JS `>` operator on numbers: false whenever either side is `NaN`. -/
def JSNum.gt : JSNum → JSNum → Bool
  | .num a, .num b => decide (b < a)
  | _, _ => false

/-- `_validateSize` (source lines 741-749) over JS numbers. -/
def TextureManager.validateSizeJS (size w h : JSNum) : Except TMError Unit :=
  if w.gt size then .error .widthTooLarge
  else if h.gt size then .error .heightTooLarge
  else .ok ()

/-- Pixel-set membership of an integer point in a rectangle. -/
def memRect (x y : Int) (r : KnapsackRectangle) : Prop :=
  r.left ≤ x ∧ x < r.right ∧ r.top ≤ y ∧ y < r.bottom

/-- `a` and `b` exactly and disjointly partition `p`: no gaps, no
overlap. -/
def splitsRect (p a b : KnapsackRectangle) : Prop :=
  (∀ x y : Int, memRect x y p ↔ (memRect x y a ∨ memRect x y b)) ∧
  (∀ x y : Int, ¬(memRect x y a ∧ memRect x y b))

/-- The tree invariant of the spec's data model: every branch node is
unoccupied and its two children's rectangles exactly and disjointly
partition its own rectangle. -/
def KnapsackNode.wf : KnapsackNode → Prop
  | .leaf _ _ _ => True
  | .branch r iv _ lc rc =>
      iv = none ∧ splitsRect r lc.rectangle rc.rectangle ∧ lc.wf ∧ rc.wf

/-- `n.sameSkeleton n'`: every branch of `n` is still a branch of `n'`
with the same rectangle and correspondingly preserved children, and
rectangles are never mutated (a leaf may stay a leaf or be split into a
branch, keeping its rectangle). -/
def KnapsackNode.sameSkeleton : KnapsackNode → KnapsackNode → Prop
  | .branch r _ _ lc rc, .branch r' _ _ lc' rc' =>
      r = r' ∧ lc.sameSkeleton lc' ∧ rc.sameSkeleton rc'
  | .branch _ _ _ _ _, .leaf _ _ _ => False
  | .leaf r _ _, n' => r = n'.rectangle

/-- All knapsack trees of a manager satisfy the tree invariant. -/
def TextureManager.allWF (tm : TextureManager) : Prop :=
  ∀ k ∈ tm.knapsacks, k.rootNode.wf

/-- Index-wise skeleton preservation between two manager states. -/
def TextureManager.skeletonPreserved (tm tm' : TextureManager) : Prop :=
  ∀ i k k', tm.knapsacks.get? i = some k → tm'.knapsacks.get? i = some k' →
    k.rootNode.sameSkeleton k'.rootNode

/-- States reachable from a fresh manager by `allocate` calls with
positive sizes and by `release` of a node inside some knapsack. -/
inductive Reachable : TextureManager → Nat → Prop where
  | init (size : Option Int) : Reachable (TextureManager.new size) 0
  | alloc {tm : TextureManager} {c : Nat} {w h : Int}
      {res : Except TMError (Option NodeRef)} {tm' : TextureManager} {c' : Nat} :
      Reachable tm c → 1 ≤ w → 1 ≤ h →
      tm.allocate w h c = (res, tm', c') → Reachable tm' c'
  | releaseStep {tm : TextureManager} {c : Nat} {i : Nat} {k : Knapsack}
      {p : List Bool} {n' : KnapsackNode} :
      Reachable tm c → tm.knapsacks.get? i = some k →
      k.rootNode.releaseAt p = some n' →
      Reachable { tm with knapsacks := tm.knapsacks.set i { k with rootNode := n' } } c

/-- Transcribed from the spec's wording for `solveASync` ("for every queued
entry in FIFO order, performs `_allocate` and resolves that entry's future
with the result"): a straight FIFO drain, used as the specification side of
the refinement stated about `solveASync`. -/
def solveFifoSpec : List (Int × Int) → TextureManager → Nat →
    List (Option NodeRef) × TextureManager × Nat
  | [], tm, c => ([], tm, c)
  | (w, h) :: rest, tm, c =>
    match tm.mAllocate w h c with
    | (r, tm', c') =>
      match solveFifoSpec rest tm' c' with
      | (rs, tm'', c'') => (r :: rs, tm'', c'')

/-! ## Helper lemmas -/

theorem KnapsackNode.sameSkeleton_refl : ∀ n : KnapsackNode, n.sameSkeleton n := by
  intro n
  induction n with
  | leaf r iv tb => simp [KnapsackNode.sameSkeleton, KnapsackNode.rectangle]
  | branch r iv tb lc rc ihl ihr => exact ⟨rfl, ihl, ihr⟩

theorem KnapsackNode.sameSkeleton_rectangle :
    ∀ {a b : KnapsackNode}, a.sameSkeleton b → a.rectangle = b.rectangle := by
  intro a b hab
  cases a <;> cases b <;>
    simp_all [KnapsackNode.sameSkeleton, KnapsackNode.rectangle]

theorem KnapsackNode.sameSkeleton_trans :
    ∀ {a b c : KnapsackNode}, a.sameSkeleton b → b.sameSkeleton c → a.sameSkeleton c := by
  intro a
  induction a with
  | leaf r iv tb =>
    intro b c hab hbc
    have h1 : r = b.rectangle := hab
    have h2 : b.rectangle = c.rectangle := KnapsackNode.sameSkeleton_rectangle hbc
    exact h1.trans h2
  | branch r iv tb lc rc ihl ihr =>
    intro b c hab hbc
    cases b with
    | leaf _ _ _ => exact absurd hab (by simp [KnapsackNode.sameSkeleton])
    | branch rb ivb tbb lb rb' =>
      cases c with
      | leaf _ _ _ => exact absurd hbc (by simp [KnapsackNode.sameSkeleton])
      | branch rc' ivc tbc lc' rc'' =>
        obtain ⟨he1, hl1, hr1⟩ := hab
        obtain ⟨he2, hl2, hr2⟩ := hbc
        exact ⟨he1.trans he2, ihl hl1 hl2, ihr hr1 hr2⟩

theorem KnapsackNode.claimAt_sameSkeleton :
    ∀ (n : KnapsackNode) (p : List Bool) (i : Nat), n.sameSkeleton (n.claimAt p i) := by
  intro n
  induction n with
  | leaf r iv tb =>
    intro p i
    cases p with
    | nil => simp [KnapsackNode.claimAt, KnapsackNode.sameSkeleton, KnapsackNode.rectangle]
    | cons b p =>
      have hcl : (KnapsackNode.leaf r iv tb).claimAt (b :: p) i = .leaf r iv tb := by
        cases b <;> rfl
      rw [hcl]
      exact KnapsackNode.sameSkeleton_refl _
  | branch r iv tb lc rc ihl ihr =>
    intro p i
    cases p with
    | nil =>
      exact ⟨rfl, KnapsackNode.sameSkeleton_refl _, KnapsackNode.sameSkeleton_refl _⟩
    | cons b p =>
      cases b with
      | false => exact ⟨rfl, ihl p i, KnapsackNode.sameSkeleton_refl _⟩
      | true => exact ⟨rfl, KnapsackNode.sameSkeleton_refl _, ihr p i⟩

theorem KnapsackNode.claimAt_rectangle (n : KnapsackNode) (p : List Bool) (i : Nat) :
    (n.claimAt p i).rectangle = n.rectangle :=
  (KnapsackNode.sameSkeleton_rectangle (KnapsackNode.claimAt_sameSkeleton n p i)).symm

theorem KnapsackNode.nodeAt_claimAt :
    ∀ (n : KnapsackNode) (p : List Bool) (r : KnapsackRectangle) (iv : Option Nat)
      (tb : Bool) (i : Nat), n.nodeAt p = some (.leaf r iv tb) →
      (n.claimAt p i).nodeAt p = some (.leaf r (some i) tb) := by
  intro n
  induction n with
  | leaf r0 iv0 tb0 =>
    intro p r iv tb i hp
    cases p with
    | nil =>
      simp only [KnapsackNode.nodeAt, Option.some.injEq] at hp
      obtain ⟨rfl, rfl, rfl⟩ := KnapsackNode.leaf.inj hp
      simp [KnapsackNode.claimAt, KnapsackNode.nodeAt]
    | cons b p => simp [KnapsackNode.nodeAt] at hp
  | branch r0 iv0 tb0 lc rc ihl ihr =>
    intro p r iv tb i hp
    cases p with
    | nil => simp [KnapsackNode.nodeAt] at hp
    | cons b p =>
      cases b with
      | false =>
        simp only [KnapsackNode.nodeAt] at hp
        have hcl : (KnapsackNode.branch r0 iv0 tb0 lc rc).claimAt (false :: p) i
            = .branch r0 iv0 tb0 (lc.claimAt p i) rc := rfl
        rw [hcl]
        simp only [KnapsackNode.nodeAt]
        exact ihl p r iv tb i hp
      | true =>
        simp only [KnapsackNode.nodeAt] at hp
        have hcl : (KnapsackNode.branch r0 iv0 tb0 lc rc).claimAt (true :: p) i
            = .branch r0 iv0 tb0 lc (rc.claimAt p i) := rfl
        rw [hcl]
        simp only [KnapsackNode.nodeAt]
        exact ihr p r iv tb i hp

theorem KnapsackNode.claimAt_wf :
    ∀ (n : KnapsackNode) (p : List Bool) (r : KnapsackRectangle) (iv : Option Nat)
      (tb : Bool) (i : Nat), n.nodeAt p = some (.leaf r iv tb) → n.wf →
      (n.claimAt p i).wf := by
  intro n
  induction n with
  | leaf r0 iv0 tb0 =>
    intro p r iv tb i hp _
    cases p with
    | nil => simp [KnapsackNode.claimAt, KnapsackNode.wf]
    | cons b p => simp [KnapsackNode.nodeAt] at hp
  | branch r0 iv0 tb0 lc rc ihl ihr =>
    intro p r iv tb i hp hwf
    obtain ⟨hiv, hsp, hwl, hwr⟩ := hwf
    cases p with
    | nil => simp [KnapsackNode.nodeAt] at hp
    | cons b p =>
      cases b with
      | false =>
        simp only [KnapsackNode.nodeAt] at hp
        refine ⟨hiv, ?_, ihl p r iv tb i hp hwl, hwr⟩
        rw [KnapsackNode.claimAt_rectangle]
        exact hsp
      | true =>
        simp only [KnapsackNode.nodeAt] at hp
        refine ⟨hiv, ?_, hwl, ihr p r iv tb i hp hwr⟩
        rw [KnapsackNode.claimAt_rectangle]
        exact hsp

theorem KnapsackNode.allocate_sound :
    ∀ (n : KnapsackNode) (w h : Int) (c : Nat),
      ∀ (res : Option (List Bool)) (n' : KnapsackNode) (c' : Nat),
        n.allocate w h c = (res, n', c') →
        (res = none → n' = n ∧ c' = c) ∧
        n.sameSkeleton n' ∧ c ≤ c' ∧
        (∀ (rr : KnapsackRectangle) (tb : Bool),
          n = .leaf rr none tb → w ≤ rr.width → h ≤ rr.height → res.isSome) ∧
        (∀ p, res = some p →
          c < c' ∧ ∃ rect tb2, n'.nodeAt p = some (.leaf rect (some (c' - 1)) tb2) ∧
            rect.width = w ∧ rect.height = h) := by
  intro n w h c
  induction n, w, h, c using KnapsackNode.allocate.induct with
  | case1 r iv tb lc rc w h c p lc' c' heq ih =>
    intro res n' c2 hall
    rw [KnapsackNode.allocate.eq_1, heq] at hall
    simp only [Prod.mk.injEq] at hall
    obtain ⟨h1, h2, h3⟩ := hall
    subst h1; subst h2; subst h3
    obtain ⟨ihA, ihSkel, ihLe, ihE, ihD⟩ := ih _ _ _ heq
    refine ⟨?_, ?_, ?_, ?_, ?_⟩
    · intro hx; exact absurd hx (by simp)
    · exact ⟨rfl,
        KnapsackNode.sameSkeleton_trans ihSkel (KnapsackNode.claimAt_sameSkeleton lc' p c'),
        KnapsackNode.sameSkeleton_refl rc⟩
    · omega
    · intro rr tb2 hEq; simp at hEq
    · intro p0 hp0
      have hp0' : (false :: p : List Bool) = p0 := Option.some.inj hp0
      subst hp0'
      obtain ⟨hlt, rect, tb2, hnode, hww, hhh⟩ := ihD p rfl
      refine ⟨by omega, rect, tb2, ?_, hww, hhh⟩
      have hstep : (KnapsackNode.branch r iv tb (lc'.claimAt p c') rc).nodeAt (false :: p)
          = (lc'.claimAt p c').nodeAt p := rfl
      rw [hstep, KnapsackNode.nodeAt_claimAt lc' p rect (some (c' - 1)) tb2 c' hnode]
      simp
  | case2 r iv tb lc rc w h c lc' c' heql res0 rc' c'' heqr ihl ihr =>
    intro res n' c2 hall
    rw [KnapsackNode.allocate.eq_1, heql] at hall
    simp only [heqr, Prod.mk.injEq] at hall
    obtain ⟨h1, h2, h3⟩ := hall
    subst h1; subst h2; subst h3
    obtain ⟨ihlA, ihlSkel, ihlLe, _, _⟩ := ihl _ _ _ heql
    obtain ⟨hlc, hc⟩ := ihlA rfl
    subst hlc; subst hc
    obtain ⟨ihrA, ihrSkel, ihrLe, _, ihrD⟩ := ihr _ _ _ heqr
    refine ⟨?_, ⟨rfl, KnapsackNode.sameSkeleton_refl _, ihrSkel⟩, ihrLe, ?_, ?_⟩
    · intro hmn
      obtain ⟨hrc, hcc⟩ := ihrA (Option.map_eq_none'.mp hmn)
      rw [hrc, hcc]
      exact ⟨rfl, rfl⟩
    · intro rr tb2 hEq; simp at hEq
    · intro p0 hp0
      obtain ⟨p1, hres1, hmap⟩ := Option.map_eq_some'.mp hp0
      subst hmap
      obtain ⟨hlt, rect, tb2, hnode, hww, hhh⟩ := ihrD p1 hres1
      exact ⟨hlt, rect, tb2, hnode, hww, hhh⟩
  | case3 r iv tb w h c hocc =>
    intro res n' c2 hall
    rw [KnapsackNode.allocate.eq_2, dif_pos hocc] at hall
    simp only [Prod.mk.injEq] at hall
    obtain ⟨h1, h2, h3⟩ := hall
    subst h1; subst h2; subst h3
    refine ⟨fun _ => ⟨rfl, rfl⟩, KnapsackNode.sameSkeleton_refl _, le_refl c, ?_, ?_⟩
    · intro rr tb2 hEq hle1 hle2
      obtain ⟨he1, he2, he3⟩ := KnapsackNode.leaf.inj hEq
      rw [he2] at hocc
      simp at hocc
    · intro p0 hp0; simp at hp0
  | case4 r iv tb w h c hocc hbig =>
    intro res n' c2 hall
    rw [KnapsackNode.allocate.eq_2, dif_neg hocc, dif_pos hbig] at hall
    simp only [Prod.mk.injEq] at hall
    obtain ⟨h1, h2, h3⟩ := hall
    subst h1; subst h2; subst h3
    refine ⟨fun _ => ⟨rfl, rfl⟩, KnapsackNode.sameSkeleton_refl _, le_refl c, ?_, ?_⟩
    · intro rr tb2 hEq hle1 hle2
      obtain ⟨he1, he2, he3⟩ := KnapsackNode.leaf.inj hEq
      subst he1
      omega
    · intro p0 hp0; simp at hp0
  | case5 r iv tb w h c hocc hbig hfit =>
    intro res n' c2 hall
    rw [KnapsackNode.allocate.eq_2, dif_neg hocc, dif_neg hbig, dif_pos hfit] at hall
    simp only [Prod.mk.injEq] at hall
    obtain ⟨h1, h2, h3⟩ := hall
    subst h1; subst h2; subst h3
    refine ⟨?_, ?_, by omega, ?_, ?_⟩
    · intro hx; exact absurd hx (by simp)
    · exact rfl
    · intro rr tb2 hEq hle1 hle2; rfl
    · intro p0 hp0
      have hp0' : ([] : List Bool) = p0 := Option.some.inj hp0
      subst hp0'
      refine ⟨by omega, r, tb, ?_, hfit.1.symm, hfit.2.symm⟩
      simp [KnapsackNode.nodeAt]
  | case6 r iv tb w h c hocc hbig hfit hdir res0 lc0 c0 heq ih =>
    intro res n' c2 hall
    rw [KnapsackNode.allocate.eq_2, dif_neg hocc, dif_neg hbig, dif_neg hfit,
      dif_pos hdir] at hall
    simp only [heq, Prod.mk.injEq] at hall
    obtain ⟨h1, h2, h3⟩ := hall
    subst h1; subst h2; subst h3
    obtain ⟨ihA, ihSkel, ihLe, ihE, ihD⟩ := ih _ _ _ heq
    have hsome : res0.isSome := by
      apply ihE ⟨r.left, r.top, r.left + w, r.bottom⟩ false rfl
      · simp [KnapsackRectangle.width]
      · simp only [KnapsackRectangle.height]
        simp only [KnapsackRectangle.width, KnapsackRectangle.height] at hbig
        omega
    refine ⟨?_, ?_, ihLe, ?_, ?_⟩
    · intro hmn
      rw [Option.map_eq_none'.mp hmn] at hsome
      simp at hsome
    · exact rfl
    · intro rr tb2 hEq hle1 hle2
      obtain ⟨p1, hres1⟩ := Option.isSome_iff_exists.mp hsome
      rw [hres1]
      simp
    · intro p0 hp0
      obtain ⟨p1, hres1, hmap⟩ := Option.map_eq_some'.mp hp0
      subst hmap
      obtain ⟨hlt, rect, tb2, hnode, hww, hhh⟩ := ihD p1 hres1
      exact ⟨hlt, rect, tb2, hnode, hww, hhh⟩
  | case7 r iv tb w h c hocc hbig hfit hdir res0 lc0 c0 heq ih =>
    intro res n' c2 hall
    rw [KnapsackNode.allocate.eq_2, dif_neg hocc, dif_neg hbig, dif_neg hfit,
      dif_neg hdir] at hall
    simp only [heq, Prod.mk.injEq] at hall
    obtain ⟨h1, h2, h3⟩ := hall
    subst h1; subst h2; subst h3
    obtain ⟨ihA, ihSkel, ihLe, ihE, ihD⟩ := ih _ _ _ heq
    have hsome : res0.isSome := by
      apply ihE ⟨r.left, r.top, r.right, r.top + h⟩ false rfl
      · simp only [KnapsackRectangle.width]
        simp only [KnapsackRectangle.width, KnapsackRectangle.height] at hbig
        omega
      · simp [KnapsackRectangle.height]
    refine ⟨?_, ?_, ihLe, ?_, ?_⟩
    · intro hmn
      rw [Option.map_eq_none'.mp hmn] at hsome
      simp at hsome
    · exact rfl
    · intro rr tb2 hEq hle1 hle2
      obtain ⟨p1, hres1⟩ := Option.isSome_iff_exists.mp hsome
      rw [hres1]
      simp
    · intro p0 hp0
      obtain ⟨p1, hres1, hmap⟩ := Option.map_eq_some'.mp hp0
      subst hmap
      obtain ⟨hlt, rect, tb2, hnode, hww, hhh⟩ := ihD p1 hres1
      exact ⟨hlt, rect, tb2, hnode, hww, hhh⟩

theorem splitsRect_of_width_cut (r : KnapsackRectangle) (w : Int)
    (h0 : 0 ≤ w) (h1 : w ≤ r.width) :
    splitsRect r ⟨r.left, r.top, r.left + w, r.bottom⟩
      ⟨r.left + w, r.top, r.right, r.bottom⟩ := by
  constructor
  · intro x y
    simp only [memRect, KnapsackRectangle.width] at *
    omega
  · intro x y
    simp only [memRect, KnapsackRectangle.width] at *
    omega

theorem splitsRect_of_height_cut (r : KnapsackRectangle) (h : Int)
    (h0 : 0 ≤ h) (h1 : h ≤ r.height) :
    splitsRect r ⟨r.left, r.top, r.right, r.top + h⟩
      ⟨r.left, r.top + h, r.right, r.bottom⟩ := by
  constructor
  · intro x y
    simp only [memRect, KnapsackRectangle.height] at *
    omega
  · intro x y
    simp only [memRect, KnapsackRectangle.height] at *
    omega

theorem KnapsackNode.allocate_wf :
    ∀ (n : KnapsackNode) (w h : Int) (c : Nat),
      ∀ (res : Option (List Bool)) (n' : KnapsackNode) (c' : Nat),
        n.allocate w h c = (res, n', c') → 1 ≤ w → 1 ≤ h → n.wf → n'.wf := by
  intro n w h c
  induction n, w, h, c using KnapsackNode.allocate.induct with
  | case1 r iv tb lc rc w h c p lc' c' heq ih =>
    intro res n' c2 hall hw hh hwf
    rw [KnapsackNode.allocate.eq_1, heq] at hall
    simp only [Prod.mk.injEq] at hall
    obtain ⟨h1, h2, h3⟩ := hall
    subst h1; subst h2; subst h3
    obtain ⟨hiv, hsp, hwl, hwr⟩ := hwf
    obtain ⟨_, ihSkel, _, _, ihD⟩ := KnapsackNode.allocate_sound lc w h c _ _ _ heq
    obtain ⟨_, rect, tb2, hnode, _, _⟩ := ihD p rfl
    refine ⟨hiv, ?_, ?_, hwr⟩
    · rw [KnapsackNode.claimAt_rectangle,
        ← KnapsackNode.sameSkeleton_rectangle ihSkel]
      exact hsp
    · exact KnapsackNode.claimAt_wf lc' p rect (some (c' - 1)) tb2 c' hnode
        (ih _ _ _ heq hw hh hwl)
  | case2 r iv tb lc rc w h c lc' c' heql res0 rc' c'' heqr ihl ihr =>
    intro res n' c2 hall hw hh hwf
    rw [KnapsackNode.allocate.eq_1, heql] at hall
    simp only [heqr, Prod.mk.injEq] at hall
    obtain ⟨h1, h2, h3⟩ := hall
    subst h1; subst h2; subst h3
    obtain ⟨hiv, hsp, hwl, hwr⟩ := hwf
    obtain ⟨ihlA, _, _, _, _⟩ := KnapsackNode.allocate_sound lc w h c _ _ _ heql
    obtain ⟨hlc, hc⟩ := ihlA rfl
    subst hlc; subst hc
    obtain ⟨_, ihrSkel, _, _, _⟩ := KnapsackNode.allocate_sound _ _ _ _ _ _ _ heqr
    refine ⟨hiv, ?_, hwl, ihr _ _ _ heqr hw hh hwr⟩
    rw [← KnapsackNode.sameSkeleton_rectangle ihrSkel]
    exact hsp
  | case3 r iv tb w h c hocc =>
    intro res n' c2 hall hw hh hwf
    rw [KnapsackNode.allocate.eq_2, dif_pos hocc] at hall
    simp only [Prod.mk.injEq] at hall
    obtain ⟨h1, h2, h3⟩ := hall
    subst h2
    trivial
  | case4 r iv tb w h c hocc hbig =>
    intro res n' c2 hall hw hh hwf
    rw [KnapsackNode.allocate.eq_2, dif_neg hocc, dif_pos hbig] at hall
    simp only [Prod.mk.injEq] at hall
    obtain ⟨h1, h2, h3⟩ := hall
    subst h2
    trivial
  | case5 r iv tb w h c hocc hbig hfit =>
    intro res n' c2 hall hw hh hwf
    rw [KnapsackNode.allocate.eq_2, dif_neg hocc, dif_neg hbig, dif_pos hfit] at hall
    simp only [Prod.mk.injEq] at hall
    obtain ⟨h1, h2, h3⟩ := hall
    subst h2
    trivial
  | case6 r iv tb w h c hocc hbig hfit hdir res0 lc0 c0 heq ih =>
    intro res n' c2 hall hw hh hwf
    rw [KnapsackNode.allocate.eq_2, dif_neg hocc, dif_neg hbig, dif_neg hfit,
      dif_pos hdir] at hall
    simp only [heq, Prod.mk.injEq] at hall
    obtain ⟨h1, h2, h3⟩ := hall
    subst h1; subst h2; subst h3
    obtain ⟨_, ihSkel, _, _, _⟩ :=
      KnapsackNode.allocate_sound _ w h c _ _ _ heq
    have hivn : iv = none := Option.not_isSome_iff_eq_none.mp hocc
    refine ⟨hivn, ?_, ih _ _ _ heq hw hh trivial, trivial⟩
    rw [← KnapsackNode.sameSkeleton_rectangle ihSkel]
    have hrc : (KnapsackNode.leaf
        ⟨r.left + w, r.top, r.right, r.bottom⟩ none false).rectangle
        = ⟨r.left + w, r.top, r.right, r.bottom⟩ := rfl
    rw [hrc]
    exact splitsRect_of_width_cut r w (by omega)
      (by simp only [KnapsackRectangle.width, KnapsackRectangle.height] at hbig ⊢; omega)
  | case7 r iv tb w h c hocc hbig hfit hdir res0 lc0 c0 heq ih =>
    intro res n' c2 hall hw hh hwf
    rw [KnapsackNode.allocate.eq_2, dif_neg hocc, dif_neg hbig, dif_neg hfit,
      dif_neg hdir] at hall
    simp only [heq, Prod.mk.injEq] at hall
    obtain ⟨h1, h2, h3⟩ := hall
    subst h1; subst h2; subst h3
    obtain ⟨_, ihSkel, _, _, _⟩ :=
      KnapsackNode.allocate_sound _ w h c _ _ _ heq
    have hivn : iv = none := Option.not_isSome_iff_eq_none.mp hocc
    refine ⟨hivn, ?_, ih _ _ _ heq hw hh trivial, trivial⟩
    rw [← KnapsackNode.sameSkeleton_rectangle ihSkel]
    have hrc : (KnapsackNode.leaf
        ⟨r.left, r.top + h, r.right, r.bottom⟩ none false).rectangle
        = ⟨r.left, r.top + h, r.right, r.bottom⟩ := rfl
    rw [hrc]
    exact splitsRect_of_height_cut r h (by omega)
      (by simp only [KnapsackRectangle.width, KnapsackRectangle.height] at hbig ⊢; omega)

theorem KnapsackNode.releaseAt_sameSkeleton :
    ∀ (n : KnapsackNode) (p : List Bool) (n' : KnapsackNode),
      n.releaseAt p = some n' → n.sameSkeleton n' := by
  intro n
  induction n with
  | leaf r iv tb =>
    intro p n' hrel
    cases p with
    | nil =>
      simp only [KnapsackNode.releaseAt, KnapsackNode.release, Option.some.injEq] at hrel
      subst hrel
      rfl
    | cons b p => simp [KnapsackNode.releaseAt] at hrel
  | branch r iv tb lc rc ihl ihr =>
    intro p n' hrel
    cases p with
    | nil =>
      simp only [KnapsackNode.releaseAt, KnapsackNode.release] at hrel
      exact Option.noConfusion hrel
    | cons b p =>
      cases b with
      | false =>
        simp only [KnapsackNode.releaseAt] at hrel
        obtain ⟨lc', h1, h2⟩ := Option.map_eq_some'.mp hrel
        subst h2
        exact ⟨rfl, ihl p lc' h1, KnapsackNode.sameSkeleton_refl rc⟩
      | true =>
        simp only [KnapsackNode.releaseAt] at hrel
        obtain ⟨rc', h1, h2⟩ := Option.map_eq_some'.mp hrel
        subst h2
        exact ⟨rfl, KnapsackNode.sameSkeleton_refl lc, ihr p rc' h1⟩

theorem KnapsackNode.releaseAt_wf :
    ∀ (n : KnapsackNode) (p : List Bool) (n' : KnapsackNode),
      n.releaseAt p = some n' → n.wf → n'.wf := by
  intro n
  induction n with
  | leaf r iv tb =>
    intro p n' hrel _
    cases p with
    | nil =>
      simp only [KnapsackNode.releaseAt, KnapsackNode.release, Option.some.injEq] at hrel
      subst hrel
      trivial
    | cons b p => simp [KnapsackNode.releaseAt] at hrel
  | branch r iv tb lc rc ihl ihr =>
    intro p n' hrel hwf
    obtain ⟨hiv, hsp, hwl, hwr⟩ := hwf
    cases p with
    | nil =>
      simp only [KnapsackNode.releaseAt, KnapsackNode.release] at hrel
      exact Option.noConfusion hrel
    | cons b p =>
      cases b with
      | false =>
        simp only [KnapsackNode.releaseAt] at hrel
        obtain ⟨lc', h1, h2⟩ := Option.map_eq_some'.mp hrel
        subst h2
        refine ⟨hiv, ?_, ihl p lc' h1 hwl, hwr⟩
        rw [← KnapsackNode.sameSkeleton_rectangle (KnapsackNode.releaseAt_sameSkeleton lc p lc' h1)]
        exact hsp
      | true =>
        simp only [KnapsackNode.releaseAt] at hrel
        obtain ⟨rc', h1, h2⟩ := Option.map_eq_some'.mp hrel
        subst h2
        refine ⟨hiv, ?_, hwl, ihr p rc' h1 hwr⟩
        rw [← KnapsackNode.sameSkeleton_rectangle (KnapsackNode.releaseAt_sameSkeleton rc p rc' h1)]
        exact hsp

theorem TextureManager.scan_sound :
    ∀ (ks : List Knapsack) (w h : Int) (c : Nat) (res : Option NodeRef)
      (ks' : List Knapsack) (c' : Nat),
      TextureManager.scanKnapsacks ks w h c = (res, ks', c') →
      (res = none → ks' = ks ∧ c' = c) ∧
      ks'.length = ks.length ∧ c ≤ c' ∧
      (∀ i k k', ks.get? i = some k → ks'.get? i = some k' →
        k.textureSize = k'.textureSize ∧ k.rootNode.sameSkeleton k'.rootNode) ∧
      (∀ i p, res = some (i, p) →
        c < c' ∧ ∃ k', ks'.get? i = some k' ∧
          ∃ rect tb, k'.rootNode.nodeAt p = some (.leaf rect (some (c' - 1)) tb) ∧
            rect.width = w ∧ rect.height = h) := by
  intro ks w h
  induction ks with
  | nil =>
    intro c res ks' c' hscan
    simp only [TextureManager.scanKnapsacks, Prod.mk.injEq] at hscan
    obtain ⟨h1, h2, h3⟩ := hscan
    subst h1; subst h2; subst h3
    refine ⟨fun _ => ⟨rfl, rfl⟩, rfl, le_refl c, ?_, ?_⟩
    · intro i k k' hk _; simp at hk
    · intro i p hp; simp at hp
  | cons k ks ih =>
    intro c res ks' c' hscan
    rcases halloc : k.rootNode.allocate w h c with ⟨res0, n0, c0⟩
    have hallocN : k.allocateNode w h c = (res0, { k with rootNode := n0 }, c0) := by
      simp [Knapsack.allocateNode, halloc]
    obtain ⟨hA, hSkel, hLe, _, hD⟩ := KnapsackNode.allocate_sound _ _ _ _ _ _ _ halloc
    cases res0 with
    | some p =>
      simp only [TextureManager.scanKnapsacks, hallocN, Prod.mk.injEq] at hscan
      obtain ⟨h1, h2, h3⟩ := hscan
      subst h1; subst h2; subst h3
      obtain ⟨hlt, rect, tb, hnode, hww, hhh⟩ := hD p rfl
      refine ⟨?_, by simp, by omega, ?_, ?_⟩
      · intro hx; exact absurd hx (by simp)
      · intro i k1 k1' hk1 hk1'
        cases i with
        | zero =>
          simp only [List.get?] at hk1 hk1'
          obtain rfl := Option.some.inj hk1
          obtain rfl := Option.some.inj hk1'
          exact ⟨rfl, hSkel⟩
        | succ i =>
          simp only [List.get?] at hk1 hk1'
          rw [hk1] at hk1'
          obtain rfl := Option.some.inj hk1'
          exact ⟨rfl, KnapsackNode.sameSkeleton_refl _⟩
      · intro i p0 hp0
        obtain ⟨hi, hp⟩ := Prod.mk.inj (Option.some.inj hp0)
        subst hi; subst hp
        exact ⟨hlt, { k with rootNode := n0 }, rfl, rect, tb, hnode, hww, hhh⟩
    | none =>
      obtain ⟨hn0, hc0⟩ := hA rfl
      rw [hn0, hc0] at hallocN
      have hketa : ({ k with rootNode := k.rootNode } : Knapsack) = k := rfl
      rw [hketa] at hallocN
      rcases hscan2 : TextureManager.scanKnapsacks ks w h c with ⟨res1, ks1, c1⟩
      simp only [TextureManager.scanKnapsacks, hallocN, hscan2,
        Prod.mk.injEq] at hscan
      obtain ⟨h1, h2, h3⟩ := hscan
      subst h1; subst h2; subst h3
      obtain ⟨ihA, ihLen, ihLe, ihIdx, ihRes⟩ := ih _ _ _ _ hscan2
      refine ⟨?_, by simp [ihLen], ihLe, ?_, ?_⟩
      · intro hmn
        obtain ⟨hks1, hc1⟩ := ihA (Option.map_eq_none'.mp hmn)
        rw [hks1, hc1]
        exact ⟨rfl, rfl⟩
      · intro i k1 k1' hk1 hk1'
        cases i with
        | zero =>
          simp only [List.get?] at hk1 hk1'
          obtain rfl := Option.some.inj hk1
          obtain rfl := Option.some.inj hk1'
          exact ⟨rfl, KnapsackNode.sameSkeleton_refl _⟩
        | succ i =>
          simp only [List.get?] at hk1 hk1'
          exact ihIdx i k1 k1' hk1 hk1'
      · intro i p0 hp0
        obtain ⟨⟨i1, p1⟩, hres1, hmap⟩ := Option.map_eq_some'.mp hp0
        obtain ⟨hi, hp⟩ := Prod.mk.inj hmap
        subst hi; subst hp
        obtain ⟨hlt, k1', hk1', rect, tb, hnode, hww, hhh⟩ := ihRes i1 p1 hres1
        exact ⟨hlt, k1', by simpa using hk1', rect, tb, hnode, hww, hhh⟩

theorem TextureManager.scan_wf :
    ∀ (ks : List Knapsack) (w h : Int) (c : Nat) (res : Option NodeRef)
      (ks' : List Knapsack) (c' : Nat),
      TextureManager.scanKnapsacks ks w h c = (res, ks', c') → 1 ≤ w → 1 ≤ h →
      (∀ k ∈ ks, k.rootNode.wf) → ∀ k' ∈ ks', k'.rootNode.wf := by
  intro ks w h
  induction ks with
  | nil =>
    intro c res ks' c' hscan _ _ _
    simp only [TextureManager.scanKnapsacks, Prod.mk.injEq] at hscan
    obtain ⟨_, h2, _⟩ := hscan
    subst h2
    intro k' hk'
    simp at hk'
  | cons k ks ih =>
    intro c res ks' c' hscan hw hh hwf
    rcases halloc : k.rootNode.allocate w h c with ⟨res0, n0, c0⟩
    have hallocN : k.allocateNode w h c = (res0, { k with rootNode := n0 }, c0) := by
      simp [Knapsack.allocateNode, halloc]
    have hwk : n0.wf :=
      KnapsackNode.allocate_wf _ _ _ _ _ _ _ halloc hw hh (hwf k (by simp))
    cases res0 with
    | some p =>
      simp only [TextureManager.scanKnapsacks, hallocN, Prod.mk.injEq] at hscan
      obtain ⟨_, h2, _⟩ := hscan
      subst h2
      intro k' hk'
      rcases List.mem_cons.mp hk' with hk' | hk'
      · rw [hk']; exact hwk
      · exact hwf _ (List.mem_cons_of_mem _ hk')
    | none =>
      rcases hscan2 : TextureManager.scanKnapsacks ks w h c0 with ⟨res1, ks1, c1⟩
      simp only [TextureManager.scanKnapsacks, hallocN, hscan2, Prod.mk.injEq] at hscan
      obtain ⟨_, h2, _⟩ := hscan
      subst h2
      intro k' hk'
      rcases List.mem_cons.mp hk' with hk' | hk'
      · rw [hk']; exact hwk
      · exact ih _ _ _ _ hscan2 hw hh (fun k2 hk2 => hwf _ (List.mem_cons_of_mem _ hk2)) k' hk'

theorem TextureManager.mAllocate_ok (tm : TextureManager) (w h : Int) (c : Nat)
    (hws : w ≤ tm.textureSize) (hhs : h ≤ tm.textureSize) :
    ∃ ref tm' c', tm.mAllocate w h c = (some ref, tm', c') ∧
      (∃ node, tm'.nodeAt ref = some node ∧ node.width = w ∧ node.height = h ∧
        node.isOccupied = true) ∧
      ((TextureManager.scanKnapsacks tm.knapsacks w h c).1 = none →
        tm'.knapsacks.length = tm.knapsacks.length + 1 ∧ ref.1 = tm.knapsacks.length ∧
        ∃ k', tm'.knapsacks.get? ref.1 = some k' ∧ k'.textureSize = tm.textureSize) := by
  rcases hscan : TextureManager.scanKnapsacks tm.knapsacks w h c with ⟨res0, ks', c0⟩
  obtain ⟨sA, sLen, sLe, sIdx, sRes⟩ := TextureManager.scan_sound _ _ _ _ _ _ _ hscan
  cases res0 with
  | some ref =>
    rcases ref with ⟨i, p⟩
    obtain ⟨hlt, k', hk', rect, tb, hnode, hww, hhh⟩ := sRes i p rfl
    refine ⟨(i, p), { tm with knapsacks := ks' }, c0, ?_, ?_, ?_⟩
    · simp only [TextureManager.mAllocate, hscan]
    · refine ⟨.leaf rect (some (c0 - 1)) tb, ?_, ?_, ?_, ?_⟩
      · simp only [TextureManager.nodeAt, hk']
        exact hnode
      · simp [KnapsackNode.width, KnapsackNode.rectangle, hww]
      · simp [KnapsackNode.height, KnapsackNode.rectangle, hhh]
      · simp [KnapsackNode.isOccupied, KnapsackNode.imageID]
    · intro hnone
      simp at hnone
  | none =>
    obtain ⟨hks, hc⟩ := sA rfl
    rcases halloc : (KnapsackNode.leaf ⟨0, 0, tm.textureSize, tm.textureSize⟩
        none false).allocate w h c0 with ⟨res1, n1, c1⟩
    obtain ⟨_, _, _, hE, hD⟩ := KnapsackNode.allocate_sound _ _ _ _ _ _ _ halloc
    have hsome : res1.isSome := by
      apply hE ⟨0, 0, tm.textureSize, tm.textureSize⟩ false rfl
      · simp only [KnapsackRectangle.width]; omega
      · simp only [KnapsackRectangle.height]; omega
    cases res1 with
    | none => simp at hsome
    | some p =>
      obtain ⟨_, rect, tb, hnode, hww, hhh⟩ := hD p rfl
      have hfreshN : (Knapsack.new tm.textureSize).allocateNode w h c0
          = (some p, { textureSize := tm.textureSize, rootNode := n1 }, c1) := by
        simp [Knapsack.new, Knapsack.allocateNode, halloc]
      refine ⟨(ks'.length, p),
        { tm with knapsacks := ks' ++ [{ textureSize := tm.textureSize, rootNode := n1 }] },
        c1, ?_, ?_, ?_⟩
      · simp only [TextureManager.mAllocate, hscan, hfreshN, Option.map_some']
      · refine ⟨.leaf rect (some (c1 - 1)) tb, ?_, ?_, ?_, ?_⟩
        · simp only [TextureManager.nodeAt, List.get?_concat_length]
          exact hnode
        · simp [KnapsackNode.width, KnapsackNode.rectangle, hww]
        · simp [KnapsackNode.height, KnapsackNode.rectangle, hhh]
        · simp [KnapsackNode.isOccupied, KnapsackNode.imageID]
      · intro _
        subst hks
        refine ⟨by simp, rfl, { textureSize := tm.textureSize, rootNode := n1 },
          List.get?_concat_length .. , rfl⟩

theorem TextureManager.mAllocate_wf (tm : TextureManager) (w h : Int) (c : Nat)
    (res : Option NodeRef) (tm' : TextureManager) (c' : Nat)
    (hm : tm.mAllocate w h c = (res, tm', c')) (hw : 1 ≤ w) (hh : 1 ≤ h)
    (hwf : tm.allWF) : tm'.allWF := by
  rcases hscan : TextureManager.scanKnapsacks tm.knapsacks w h c with ⟨res0, ks', c0⟩
  have hswf : ∀ k' ∈ ks', k'.rootNode.wf :=
    TextureManager.scan_wf _ _ _ _ _ _ _ hscan hw hh hwf
  cases res0 with
  | some ref =>
    simp only [TextureManager.mAllocate, hscan, Prod.mk.injEq] at hm
    obtain ⟨_, h2, _⟩ := hm
    subst h2
    exact hswf
  | none =>
    rcases halloc : (KnapsackNode.leaf ⟨0, 0, tm.textureSize, tm.textureSize⟩
        none false).allocate w h c0 with ⟨res1, n1, c1⟩
    have hfreshN : (Knapsack.new tm.textureSize).allocateNode w h c0
        = (res1, { textureSize := tm.textureSize, rootNode := n1 }, c1) := by
      simp [Knapsack.new, Knapsack.allocateNode, halloc]
    simp only [TextureManager.mAllocate, hscan, hfreshN, Prod.mk.injEq] at hm
    obtain ⟨_, h2, _⟩ := hm
    subst h2
    intro k2 hk2
    rcases List.mem_append.mp hk2 with hk2 | hk2
    · exact hswf _ hk2
    · have : k2 = { textureSize := tm.textureSize, rootNode := n1 } := by
        simpa using hk2
      rw [this]
      exact KnapsackNode.allocate_wf _ _ _ _ _ _ _ halloc hw hh trivial

theorem TextureManager.mAllocate_skeleton (tm : TextureManager) (w h : Int) (c : Nat)
    (res : Option NodeRef) (tm' : TextureManager) (c' : Nat)
    (hm : tm.mAllocate w h c = (res, tm', c')) : tm.skeletonPreserved tm' := by
  rcases hscan : TextureManager.scanKnapsacks tm.knapsacks w h c with ⟨res0, ks', c0⟩
  obtain ⟨sA, sLen, sLe, sIdx, sRes⟩ := TextureManager.scan_sound _ _ _ _ _ _ _ hscan
  cases res0 with
  | some ref =>
    simp only [TextureManager.mAllocate, hscan, Prod.mk.injEq] at hm
    obtain ⟨_, h2, _⟩ := hm
    subst h2
    intro i k k' hk hk'
    exact (sIdx i k k' hk hk').2
  | none =>
    obtain ⟨hks, hc⟩ := sA rfl
    subst hks
    rcases halloc : (KnapsackNode.leaf ⟨0, 0, tm.textureSize, tm.textureSize⟩
        none false).allocate w h c0 with ⟨res1, n1, c1⟩
    have hfreshN : (Knapsack.new tm.textureSize).allocateNode w h c0
        = (res1, { textureSize := tm.textureSize, rootNode := n1 }, c1) := by
      simp [Knapsack.new, Knapsack.allocateNode, halloc]
    simp only [TextureManager.mAllocate, hscan, hfreshN, Prod.mk.injEq] at hm
    obtain ⟨_, h2, _⟩ := hm
    subst h2
    intro i k k' hk hk'
    have hi : i < tm.knapsacks.length := by
      by_contra hcon
      rw [List.get?_eq_none.mpr (by omega)] at hk
      exact Option.noConfusion hk
    rw [List.get?_append hi, hk] at hk'
    obtain rfl := Option.some.inj hk'
    exact KnapsackNode.sameSkeleton_refl _

theorem TextureManager.reachable_allWF :
    ∀ {tm : TextureManager} {c : Nat}, Reachable tm c → tm.allWF := by
  intro tm c hre
  induction hre with
  | init size =>
    intro k hk
    simp [TextureManager.new] at hk
  | alloc hre hw hh hall ih =>
    next tm0 c0 w h res tm1 c1 =>
      rcases hval : tm0.validateSize w h with e | u
      · simp only [TextureManager.allocate, hval, Prod.mk.injEq] at hall
        obtain ⟨_, h2, _⟩ := hall
        subst h2
        exact ih
      · rcases hma : tm0.mAllocate w h c0 with ⟨res2, tm2, c2⟩
        simp only [TextureManager.allocate, hval, hma, Prod.mk.injEq] at hall
        obtain ⟨_, h2, _⟩ := hall
        subst h2
        exact TextureManager.mAllocate_wf _ _ _ _ _ _ _ hma hw hh ih
  | releaseStep hre hget hrel ih =>
    next tm0 c0 i k p n' =>
      intro k2 hk2
      rcases List.mem_or_eq_of_mem_set hk2 with hk2 | hk2
      · exact ih _ hk2
      · rw [hk2]
        exact KnapsackNode.releaseAt_wf _ _ _ hrel (ih k (List.get?_mem hget))

theorem TextureManager.solve_foldl_fifo :
    ∀ (q : List (Int × Int)) (tm : TextureManager) (c : Nat) (acc : List (Option NodeRef)),
      q.foldl
        (fun acc e =>
          match acc, e with
          | (promises, t, cc), (w, h) =>
            match t.mAllocate w h cc with
            | (node, t', cc') => (promises ++ [node], t', cc'))
        (acc, tm, c) =
      (acc ++ (solveFifoSpec q tm c).1, (solveFifoSpec q tm c).2.1,
        (solveFifoSpec q tm c).2.2) := by
  intro q
  induction q with
  | nil => intro tm c acc; simp [solveFifoSpec]
  | cons e rest ih =>
    intro tm c acc
    rcases e with ⟨w, h⟩
    rcases hma : tm.mAllocate w h c with ⟨r0, tm0, c0⟩
    rcases hfifo : solveFifoSpec rest tm0 c0 with ⟨rs, tm1, c1⟩
    simp only [List.foldl, hma, solveFifoSpec, hfifo]
    rw [ih tm0 c0 (acc ++ [r0])]
    simp [hfifo]

theorem solveFifoSpec_length :
    ∀ (q : List (Int × Int)) (tm : TextureManager) (c : Nat),
      (solveFifoSpec q tm c).1.length = q.length := by
  intro q
  induction q with
  | nil => intro tm c; simp [solveFifoSpec]
  | cons e rest ih =>
    intro tm c
    rcases e with ⟨w, h⟩
    rcases hma : tm.mAllocate w h c with ⟨r0, tm0, c0⟩
    rcases hfifo : solveFifoSpec rest tm0 c0 with ⟨rs, tm1, c1⟩
    simp only [solveFifoSpec, hma, hfifo, List.length_cons]
    have := ih tm0 c0
    rw [hfifo] at this
    simp at this
    omega

/-! ## Claim theorems -/

/-- C1: for every integer width and height with `1 ≤ w`, `1 ≤ h`,
`w ≤ textureSize` and `h ≤ textureSize`, `TextureManager.allocate`
succeeds and the returned node's width and height equal the request
exactly; and when no existing surface can fit the request (the scan over
existing knapsacks returns null), exactly one new surface of the
configured size is created, the returned node lives on it, and that
allocation succeeds. -/
theorem claim1_allocate_exact_dimensions (tm : TextureManager) (w h : Int) (c : Nat)
    (hw : 1 ≤ w) (hh : 1 ≤ h) (hws : w ≤ tm.textureSize) (hhs : h ≤ tm.textureSize) :
    ∃ ref tm' c', tm.allocate w h c = (.ok (some ref), tm', c') ∧
      (∃ node, tm'.nodeAt ref = some node ∧ node.width = w ∧ node.height = h) ∧
      ((TextureManager.scanKnapsacks tm.knapsacks w h c).1 = none →
        tm'.knapsacks.length = tm.knapsacks.length + 1 ∧ ref.1 = tm.knapsacks.length ∧
        ∃ k', tm'.knapsacks.get? ref.1 = some k' ∧ k'.textureSize = tm.textureSize) := by
  obtain ⟨ref, tm', c', hma, hnode, hfresh⟩ := TextureManager.mAllocate_ok tm w h c hws hhs
  have hval : tm.validateSize w h = .ok () := by
    simp only [TextureManager.validateSize]
    rw [if_neg (by omega), if_neg (by omega)]
  refine ⟨ref, tm', c', ?_, ?_, hfresh⟩
  · simp only [TextureManager.allocate, hval, hma]
  · obtain ⟨node, h1, h2, h3, _⟩ := hnode
    exact ⟨node, h1, h2, h3⟩

/-- Witness for C1 at a concrete input: a fresh manager of size 128 and a
100×50 request. -/
theorem claim1_witness :
    ∃ ref tm' c',
      (TextureManager.new (some 128)).allocate 100 50 0 = (.ok (some ref), tm', c') ∧
      (∃ node, tm'.nodeAt ref = some node ∧ node.width = 100 ∧ node.height = 50) ∧
      ((TextureManager.scanKnapsacks (TextureManager.new (some 128)).knapsacks
          100 50 0).1 = none →
        tm'.knapsacks.length = (TextureManager.new (some 128)).knapsacks.length + 1 ∧
        ref.1 = (TextureManager.new (some 128)).knapsacks.length ∧
        ∃ k', tm'.knapsacks.get? ref.1 = some k' ∧
          k'.textureSize = (TextureManager.new (some 128)).textureSize) :=
  claim1_allocate_exact_dimensions (TextureManager.new (some 128)) 100 50 0
    (by decide) (by decide) (by decide) (by decide)

/-- C2 counterexample: after packing a 100×50 node into a fresh 128×128
tree (consuming exactly one fresh identifier, counter 0 → 1), a second
top-level `allocate(10,10)` succeeds but consumes TWO fresh identifiers
(counter 1 → 3), not one: the accepted leaf is claimed once at
acceptance and then re-claimed by the root branch node because the result
propagated up through the root's left child (source line 330).  This
refutes "the occupancy identifier ... is assigned exactly once during
that call" and "no ancestor branch node assigns a further fresh
identifier". -/
theorem claim2_counterexample :
    (((KnapsackNode.leaf ⟨0, 0, 128, 128⟩ none false).allocate 100 50 0).2.1.allocate
        10 10 ((KnapsackNode.leaf ⟨0, 0, 128, 128⟩ none false).allocate 100 50 0).2.2).1.isSome
      = true ∧
    ¬((((KnapsackNode.leaf ⟨0, 0, 128, 128⟩ none false).allocate 100 50 0).2.1.allocate
        10 10 ((KnapsackNode.leaf ⟨0, 0, 128, 128⟩ none false).allocate 100 50 0).2.2).2.2
      = ((KnapsackNode.leaf ⟨0, 0, 128, 128⟩ none false).allocate 100 50 0).2.2 + 1) := by
  simp +decide [KnapsackNode.allocate, KnapsackNode.claimAt]

/-- C2 (amended): in every successful top-level allocation the returned
leaf is claimed when first accepted, but while the result propagates back
up, each ancestor branch node whose left child produced it assigns a
further fresh identifier (so at least one identifier is consumed, possibly
more), and the returned leaf ends occupied by the most recently generated
identifier. -/
theorem claim2_amended_claim_per_call (n : KnapsackNode) (w h : Int) (c : Nat)
    (p : List Bool) (n' : KnapsackNode) (c' : Nat)
    (hall : n.allocate w h c = (some p, n', c')) :
    c < c' ∧ ∃ rect tb, n'.nodeAt p = some (.leaf rect (some (c' - 1)) tb) := by
  obtain ⟨_, _, _, _, hD⟩ := KnapsackNode.allocate_sound _ _ _ _ _ _ _ hall
  obtain ⟨hlt, rect, tb, hnode, _, _⟩ := hD p rfl
  exact ⟨hlt, rect, tb, hnode⟩

/-- Witness for the amended C2 at a concrete successful allocation. -/
theorem claim2_amended_witness :
    0 < 1 ∧ ∃ rect tb,
      (KnapsackNode.branch ⟨0, 0, 128, 128⟩ none false
        (.branch ⟨0, 0, 128, 50⟩ none false
          (.leaf ⟨0, 0, 100, 50⟩ (some 0) false)
          (.leaf ⟨100, 0, 128, 50⟩ none false))
        (.leaf ⟨0, 50, 128, 128⟩ none false)).nodeAt [false, false]
        = some (.leaf rect (some (1 - 1)) tb) :=
  claim2_amended_claim_per_call (KnapsackNode.leaf ⟨0, 0, 128, 128⟩ none false)
    100 50 0 [false, false] _ 1
    (by simp +decide [KnapsackNode.allocate, KnapsackNode.claimAt])

/-- C3: whenever the requested width or height exceeds the configured
surface size, `allocate` raises a size error (and `allocateNode` rejects
with the same error), the manager state and counter are untouched (so no
new surface is created), on any manager state including a brand-new one
with zero surfaces. -/
theorem claim3_size_error (tm : TextureManager) (w h : Int) (c : Nat)
    (hbig : w > tm.textureSize ∨ h > tm.textureSize) :
    ∃ e : TMError, e.isSizeError = true ∧
      tm.allocate w h c = (.error e, tm, c) ∧
      tm.allocateNode w h c = (.error e, tm, c) := by
  by_cases hw : w > tm.textureSize
  · refine ⟨.widthTooLarge, rfl, ?_, ?_⟩ <;>
      simp [TextureManager.allocate, TextureManager.allocateNode,
        TextureManager.validateSize, hw]
  · have hh : h > tm.textureSize := by tauto
    refine ⟨.heightTooLarge, rfl, ?_, ?_⟩ <;>
      simp [TextureManager.allocate, TextureManager.allocateNode,
        TextureManager.validateSize, hw, hh]

/-- Witness for C3: a 200-wide request on a brand-new manager of size
128 with zero surfaces. -/
theorem claim3_witness :
    ∃ e : TMError, e.isSizeError = true ∧
      (TextureManager.new (some 128)).allocate 200 1 0
        = (.error e, TextureManager.new (some 128), 0) ∧
      (TextureManager.new (some 128)).allocateNode 200 1 0
        = (.error e, TextureManager.new (some 128), 0) :=
  claim3_size_error (TextureManager.new (some 128)) 200 1 0 (by decide)

/-- C4 counterexample: on a brand-new manager, a single oversized
`allocateASync(2000, 10)` call is rejected and queues NOTHING (the queue
is initialised to the empty array before validation, and the entry is
never pushed), so no batch request was ever queued; yet the following
`solveASync()` does NOT raise `QueueNotInitializedError` — it resolves an
empty batch.  This refutes "raises ... if and only if no batch request
was ever queued via allocateASync". -/
theorem claim4_counterexample :
    ((TextureManager.new (some 1024)).allocateASync 2000 10).1
      = .rejected .widthTooLarge ∧
    ((TextureManager.new (some 1024)).allocateASync 2000 10).2.queue = some [] ∧
    ¬(((TextureManager.new (some 1024)).allocateASync 2000 10).2.solveASync 0
        = .error .queueNotInitialized) :=
  ⟨rfl, rfl, fun herr => Except.noConfusion herr⟩

/-- C4 (amended): `solveASync` raises `QueueNotInitializedError` iff the
queue was never initialised, i.e. iff `allocateASync` has never been
called; after any `allocateASync` call — even one rejected for size,
which queues no entry — `solveASync` does not raise. -/
theorem claim4_amended_raise_iff_never_initialized (tm : TextureManager) (c : Nat) :
    ((tm.solveASync c = .error .queueNotInitialized) ↔ tm.queue = none) ∧
    (∀ w h : Int,
      ¬(((tm.allocateASync w h).2).solveASync c = .error .queueNotInitialized)) := by
  have hok : ∀ (tm2 : TextureManager) (q : List (Int × Int)), tm2.queue = some q →
      ∀ cc, ¬(tm2.solveASync cc = .error .queueNotInitialized) := by
    intro tm2 q hq cc herr
    simp only [TextureManager.solveASync, hq] at herr
    rw [TextureManager.solve_foldl_fifo q tm2 cc []] at herr
    simp at herr
  constructor
  · constructor
    · intro herr
      rcases hq : tm.queue with _ | q
      · rfl
      · exact absurd herr (hok tm q hq c)
    · intro hq
      simp [TextureManager.solveASync, hq]
  · intro w h herr
    rcases hval : tm.validateSize w h with e | u
    · have hq2 : ((tm.allocateASync w h).2).queue = some (tm.queue.getD []) := by
        simp [TextureManager.allocateASync, hval]
      exact hok _ _ hq2 c herr
    · have hq2 : ((tm.allocateASync w h).2).queue
          = some (tm.queue.getD [] ++ [(w, h)]) := by
        simp [TextureManager.allocateASync, hval]
      exact hok _ _ hq2 c herr

/-- Witness for the amended C4 at a concrete manager state. -/
theorem claim4_amended_witness :
    (((TextureManager.new (some 1024)).solveASync 0 = .error .queueNotInitialized) ↔
      (TextureManager.new (some 1024)).queue = none) ∧
    (∀ w h : Int,
      ¬((((TextureManager.new (some 1024)).allocateASync w h).2).solveASync 0
          = .error .queueNotInitialized)) :=
  claim4_amended_raise_iff_never_initialized (TextureManager.new (some 1024)) 0

/-- C5: when `solveASync` runs with a queue, it never raises; it performs
`_allocate` on every queued entry in FIFO submission order, resolving each
entry's future with the corresponding allocation result in that order
(the returned list is exactly the FIFO drain described by the spec,
`solveFifoSpec`), it resets the queue to the empty array immediately
after dispatch, and the aggregate future settles with exactly one result
per queued entry. -/
theorem claim5_solveASync_fifo (tm : TextureManager) (c : Nat) (q : List (Int × Int))
    (hq : tm.queue = some q) :
    tm.solveASync c = .ok ((solveFifoSpec q tm c).1,
      { (solveFifoSpec q tm c).2.1 with queue := some [] },
      (solveFifoSpec q tm c).2.2) ∧
    (solveFifoSpec q tm c).1.length = q.length := by
  constructor
  · simp only [TextureManager.solveASync, hq]
    rw [TextureManager.solve_foldl_fifo q tm c []]
    simp
  · exact solveFifoSpec_length q tm c

/-- Witness for C5: one queued 10×10 request on a fresh manager of size
128. -/
theorem claim5_witness :
    (((TextureManager.new (some 128)).allocateASync 10 10).2.solveASync 0
      = .ok ((solveFifoSpec [(10, 10)]
              ((TextureManager.new (some 128)).allocateASync 10 10).2 0).1,
        { (solveFifoSpec [(10, 10)]
              ((TextureManager.new (some 128)).allocateASync 10 10).2 0).2.1
            with queue := some [] },
        (solveFifoSpec [(10, 10)]
              ((TextureManager.new (some 128)).allocateASync 10 10).2 0).2.2)) ∧
    (solveFifoSpec [(10, 10)]
        ((TextureManager.new (some 128)).allocateASync 10 10).2 0).1.length
      = [((10 : Int), (10 : Int))].length :=
  claim5_solveASync_fifo ((TextureManager.new (some 128)).allocateASync 10 10).2
    0 [(10, 10)] (by decide)

/-- C6: in every state reachable from a fresh manager by `allocate` calls
with positive sizes and by releases, every branch node of every knapsack
tree is unoccupied and its two children's rectangles exactly and
disjointly partition its own rectangle (`allWF`); moreover any further
positive-size `allocate` step, and any release inside a knapsack,
preserves every existing branch (same rectangle, children kept, never
merged back) — the skeleton-preservation conjuncts. -/
theorem claim6_tree_invariants (tm : TextureManager) (c : Nat) (hre : Reachable tm c) :
    tm.allWF ∧
    (∀ (w h : Int) (res : Except TMError (Option NodeRef)) (tm' : TextureManager)
      (c' : Nat), 1 ≤ w → 1 ≤ h → tm.allocate w h c = (res, tm', c') →
      tm.skeletonPreserved tm') ∧
    (∀ (i : Nat) (k : Knapsack) (p : List Bool) (n' : KnapsackNode),
      tm.knapsacks.get? i = some k → k.rootNode.releaseAt p = some n' →
      k.rootNode.sameSkeleton n') := by
  refine ⟨TextureManager.reachable_allWF hre, ?_, ?_⟩
  · intro w h res tm' c' hw hh hall
    rcases hval : tm.validateSize w h with e | u
    · simp only [TextureManager.allocate, hval, Prod.mk.injEq] at hall
      obtain ⟨_, h2, _⟩ := hall
      subst h2
      intro i k k' hk hk'
      rw [hk] at hk'
      obtain rfl := Option.some.inj hk'
      exact KnapsackNode.sameSkeleton_refl _
    · rcases hma : tm.mAllocate w h c with ⟨res2, tm2, c2⟩
      simp only [TextureManager.allocate, hval, hma, Prod.mk.injEq] at hall
      obtain ⟨_, h2, _⟩ := hall
      subst h2
      exact TextureManager.mAllocate_skeleton _ _ _ _ _ _ _ hma
  · intro i k p n' _ hrel
    exact KnapsackNode.releaseAt_sameSkeleton _ _ _ hrel

/-- Witness for C6 at the concrete reachable state of a fresh manager. -/
theorem claim6_witness :
    (TextureManager.new none).allWF ∧
    (∀ (w h : Int) (res : Except TMError (Option NodeRef)) (tm' : TextureManager)
      (c' : Nat), 1 ≤ w → 1 ≤ h →
      (TextureManager.new none).allocate w h 0 = (res, tm', c') →
      (TextureManager.new none).skeletonPreserved tm') ∧
    (∀ (i : Nat) (k : Knapsack) (p : List Bool) (n' : KnapsackNode),
      (TextureManager.new none).knapsacks.get? i = some k →
      k.rootNode.releaseAt p = some n' → k.rootNode.sameSkeleton n') :=
  claim6_tree_invariants (TextureManager.new none) 0 (Reachable.init none)

/-- C7: a free leaf that is large enough but not an exact fit is split
into exactly two new children whose rectangles follow the leftover
comparison — if `width - w > height - h` the first child covers the
requested width at the node's full height and the second the remaining
width strip, otherwise the first covers the requested height at the
node's full width and the second the remaining height strip — and the
allocation recurses into the first (newly created) child, whose result
is returned with the path extended by "left". -/
theorem claim7_split_geometry (r : KnapsackRectangle) (tb : Bool) (w h : Int) (c : Nat)
    (hbig : ¬(w > r.width ∨ h > r.height)) (hnex : ¬(w = r.width ∧ h = r.height)) :
    (KnapsackNode.leaf r none tb).allocate w h c =
      ((((KnapsackNode.leaf (if r.width - w > r.height - h
              then ⟨r.left, r.top, r.left + w, r.bottom⟩
              else ⟨r.left, r.top, r.right, r.top + h⟩) none false).allocate w h c).1).map
          (fun p => false :: p),
        .branch r none tb
          (((KnapsackNode.leaf (if r.width - w > r.height - h
              then ⟨r.left, r.top, r.left + w, r.bottom⟩
              else ⟨r.left, r.top, r.right, r.top + h⟩) none false).allocate w h c).2.1)
          (.leaf (if r.width - w > r.height - h
              then ⟨r.left + w, r.top, r.right, r.bottom⟩
              else ⟨r.left, r.top + h, r.right, r.bottom⟩) none false),
        ((KnapsackNode.leaf (if r.width - w > r.height - h
              then ⟨r.left, r.top, r.left + w, r.bottom⟩
              else ⟨r.left, r.top, r.right, r.top + h⟩) none false).allocate w h c).2.2) := by
  by_cases hdir : r.width - w > r.height - h
  · rw [KnapsackNode.allocate.eq_2, dif_neg (by simp), dif_neg hbig, dif_neg hnex,
      dif_pos hdir, if_pos hdir]
    rcases hinner : (KnapsackNode.leaf ⟨r.left, r.top, r.left + w, r.bottom⟩
        none false).allocate w h c with ⟨res0, lc0, c0⟩
    simp [hinner]
    rw [if_pos hdir]
  · rw [KnapsackNode.allocate.eq_2, dif_neg (by simp), dif_neg hbig, dif_neg hnex,
      dif_neg hdir, if_neg hdir]
    rcases hinner : (KnapsackNode.leaf ⟨r.left, r.top, r.right, r.top + h⟩
        none false).allocate w h c with ⟨res0, lc0, c0⟩
    simp [hinner]
    rw [if_neg hdir]

/-- Witness for C7: a 100×50 request on a free 128×128 leaf. -/
theorem claim7_witness :
    (KnapsackNode.leaf ⟨0, 0, 128, 128⟩ none false).allocate 100 50 0 =
      ((((KnapsackNode.leaf (if (⟨0, 0, 128, 128⟩ : KnapsackRectangle).width - 100 >
              (⟨0, 0, 128, 128⟩ : KnapsackRectangle).height - 50
              then ⟨0, 0, 0 + 100, 128⟩
              else ⟨0, 0, 128, 0 + 50⟩) none false).allocate 100 50 0).1).map
          (fun p => false :: p),
        .branch ⟨0, 0, 128, 128⟩ none false
          (((KnapsackNode.leaf (if (⟨0, 0, 128, 128⟩ : KnapsackRectangle).width - 100 >
              (⟨0, 0, 128, 128⟩ : KnapsackRectangle).height - 50
              then ⟨0, 0, 0 + 100, 128⟩
              else ⟨0, 0, 128, 0 + 50⟩) none false).allocate 100 50 0).2.1)
          (.leaf (if (⟨0, 0, 128, 128⟩ : KnapsackRectangle).width - 100 >
              (⟨0, 0, 128, 128⟩ : KnapsackRectangle).height - 50
              then ⟨0 + 100, 0, 128, 128⟩
              else ⟨0, 0 + 50, 128, 128⟩) none false),
        ((KnapsackNode.leaf (if (⟨0, 0, 128, 128⟩ : KnapsackRectangle).width - 100 >
              (⟨0, 0, 128, 128⟩ : KnapsackRectangle).height - 50
              then ⟨0, 0, 0 + 100, 128⟩
              else ⟨0, 0, 128, 0 + 50⟩) none false).allocate 100 50 0).2.2) :=
  claim7_split_geometry ⟨0, 0, 128, 128⟩ false 100 50 0 (by decide) (by decide)

/-- C8: `uvCoordinates` returns
`[left/size, 1 - bottom/size, right/size, 1 - top/size]`, the lazily
built texture gets offset `(left/size, 1 - bottom/size)` and repeat
`(right/size - left/size, (1 - top/size) - (1 - bottom/size))`, and at
rectangle (0,0,100,50) on a 1024 surface the coordinates are exactly
`[0, 1 - 50/1024, 100/1024, 1]`. -/
theorem claim8_uv_coordinates (r : KnapsackRectangle) (size : Int) :
    KnapsackNode.uvCoordinates r size =
      [(r.left : ℚ) / (size : ℚ), 1 - (r.bottom : ℚ) / (size : ℚ),
        (r.right : ℚ) / (size : ℚ), 1 - (r.top : ℚ) / (size : ℚ)] ∧
    KnapsackNode.buildTexture r size =
      { offsetX := (r.left : ℚ) / (size : ℚ)
        offsetY := 1 - (r.bottom : ℚ) / (size : ℚ)
        repeatX := (r.right : ℚ) / (size : ℚ) - (r.left : ℚ) / (size : ℚ)
        repeatY := (1 - (r.top : ℚ) / (size : ℚ)) - (1 - (r.bottom : ℚ) / (size : ℚ)) } ∧
    KnapsackNode.uvCoordinates ⟨0, 0, 100, 50⟩ 1024 =
      [0, 1 - 50 / 1024, 100 / 1024, 1] := by
  refine ⟨rfl, ?_, ?_⟩
  · simp [KnapsackNode.buildTexture, KnapsackNode.uvCoordinates]
  · simp only [KnapsackNode.uvCoordinates]
    norm_num

/-- C9: `release()` raises exactly on a node with children; on a
childless node it clears the occupancy identifier (the result is free)
and disposes the texture handle at most once across repeated releases
(the second release of the same node reports no dispose); the manager's
`release` is a no-op on a null node and otherwise delegates to the
node's own `release()`. -/
theorem claim9_release (n : KnapsackNode) (r : KnapsackRectangle)
    (iv : Option Nat) (tb : Bool) :
    (n.release = .error .releaseOnBranch ↔ n.hasChildren = true) ∧
    ((KnapsackNode.leaf r iv tb).release = .ok (.leaf r none false, tb)) ∧
    ((KnapsackNode.leaf r none false).isOccupied = false) ∧
    ((KnapsackNode.leaf r none false).release = .ok (.leaf r none false, false)) ∧
    (TextureManager.release none = .ok none) ∧
    (TextureManager.release (some n) = n.release.map some) := by
  refine ⟨?_, rfl, rfl, rfl, rfl, rfl⟩
  cases n <;> simp [KnapsackNode.release, KnapsackNode.hasChildren]

/-- C10: size validation checks only the upper bound — it accepts exactly
when neither JS `>` comparison against the texture size holds; `NaN`
dimensions (all comparisons false) pass, zero and negative dimensions
pass on any nonnegative size, and whenever both integer dimensions are at
most the texture size, `allocate` proceeds into the allocation algorithm
(`_allocate`) with no error. -/
theorem claim10_validation_upper_bound_only :
    (∀ s wj hj : JSNum,
      TextureManager.validateSizeJS s wj hj = .ok () ↔
        (wj.gt s = false ∧ hj.gt s = false)) ∧
    (∀ s : JSNum, TextureManager.validateSizeJS s .nan .nan = .ok ()) ∧
    (∀ (sz : Int) (q1 q2 : ℚ), 0 ≤ sz → q1 ≤ 0 → q2 ≤ 0 →
      TextureManager.validateSizeJS (.num (sz : ℚ)) (.num q1) (.num q2) = .ok ()) ∧
    (∀ (tm : TextureManager) (w h : Int) (c : Nat),
      w ≤ tm.textureSize → h ≤ tm.textureSize →
      (tm.allocate w h c).1 = .ok (tm.mAllocate w h c).1) := by
  refine ⟨?_, ?_, ?_, ?_⟩
  · intro s wj hj
    simp only [TextureManager.validateSizeJS]
    rcases hwg : wj.gt s <;> rcases hhg : hj.gt s <;> simp
  · intro s
    simp [TextureManager.validateSizeJS, JSNum.gt]
  · intro sz q1 q2 hsz h1 h2
    have hcast : (0 : ℚ) ≤ (sz : ℚ) := by exact_mod_cast hsz
    have hb1 : (JSNum.num q1).gt (.num (sz : ℚ)) = false := by
      simp [JSNum.gt]
      linarith
    have hb2 : (JSNum.num q2).gt (.num (sz : ℚ)) = false := by
      simp [JSNum.gt]
      linarith
    simp [TextureManager.validateSizeJS, hb1, hb2]
  · intro tm w h c hws hhs
    have hval : tm.validateSize w h = .ok () := by
      simp only [TextureManager.validateSize]
      rw [if_neg (by omega), if_neg (by omega)]
    rcases hma : tm.mAllocate w h c with ⟨res2, tm2, c2⟩
    simp [TextureManager.allocate, hval, hma]

/-- Witness for C10 at concrete inputs: size 1024, width −3, height 0 and
`NaN` dimensions. -/
theorem claim10_witness :
    TextureManager.validateSizeJS (.num ((1024 : Int) : ℚ)) (.num (-3)) (.num 0)
      = .ok () ∧
    TextureManager.validateSizeJS (.num ((1024 : Int) : ℚ)) .nan .nan = .ok () :=
  ⟨claim10_validation_upper_bound_only.2.2.1 1024 (-3) 0 (by norm_num) (by norm_num)
      (by norm_num),
    claim10_validation_upper_bound_only.2.1 _⟩
